import Mathlib

/-!
Verification of the message-processing pipeline and conversation store of a
web chat application. The definitions are a shallow embedding of the
TypeScript sources: the tRPC chat router (`sendMessage`, `getChat`,
`updateChatTitle`, `deleteChat`), the LLM service (`processUserMessage`,
`processQueryWithSearch`, `processQueryWithoutSearch`, `generateSearchQuery`,
`generateChatTitle` and their response-normalization logic), and the
database service (`chat-service.ts`: `addMessageToChat`, `getChatById`,
`updateChatTitle`, `deleteChat`).

External effects are modelled by an environment `Env`: the LLM client is a
function from (user prompt, system prompt) to `Except Unit String`, the
search client a function from the query to `Except Unit (List SearchResult)`,
and database writes consult an oracle `dbOk : Nat → Bool` indexed by a
running write counter (reads from the in-memory store are total).
-/

/-- Named characters, kept out of literals. -/
def quoteC : Char := Char.ofNat 34

/-- Backslash character. -/
def bslashC : Char := Char.ofNat 92

/-- Single-quote (apostrophe) character. -/
def apostC : Char := Char.ofNat 39

/-- Backtick character. -/
def btC : Char := Char.ofNat 96

/-- Left brace character. -/
def lbraceC : Char := Char.ofNat 123

/-- Right brace character. -/
def rbraceC : Char := Char.ofNat 125

/-- Whitespace as used by JavaScript `String.prototype.trim` (ASCII subset;
the full JS set also has Unicode spaces, which the sources never rely on). -/
def jsWs (c : Char) : Bool :=
  c = ' ' || c = Char.ofNat 9 || c = Char.ofNat 10 || c = Char.ofNat 11 ||
  c = Char.ofNat 12 || c = Char.ofNat 13

/-- JavaScript `trim()`: drop whitespace at both ends. -/
def jsTrim (s : String) : String :=
  ⟨((s.data.dropWhile jsWs).reverse.dropWhile jsWs).reverse⟩

/-- A citation as exchanged between the LLM service and the store
(`Citation` in both `llm-service` and `chat-service.ts`). -/
structure Citation where
  title : String
  url : String
  relevance : Option String
deriving Repr, DecidableEq

/-- A search hit as returned by the search client (`SearchResult`). -/
structure SearchResult where
  title : String
  url : String
  content : String
  publishedDate : Option String
deriving Repr, DecidableEq

/-- One turn of conversation history (`ConversationMessage`). -/
structure ConvMsg where
  role : String
  content : String
deriving Repr, DecidableEq

/-! Section: Response normalization (`cleanedResponse` in the LLM service)

The service cleans every raw LLM answer with
`.replace(/[\u0000-\u0019]+/g, "").replace(/\\n/g, " ").replace(/\\"/g, '"').trim()`.
-/

/-- Implements `/[\u0000-\u0019]+/g → ""`: removing every run of characters with code
point ≤ 0x19 is the same as removing each such character. -/
def stripCtl (l : List Char) : List Char :=
  l.filter (fun c => !(c.toNat ≤ 0x19))

/-- Global left-to-right replacement of the two-character sequence
backslash-`n` by `sub` (JS `.replace(/\\n/g, sub)` for a one-char `sub`). -/
def replaceEscNl (sub : Char) : List Char → List Char
  | [] => []
  | [c] => [c]
  | c :: c2 :: rest2 =>
    if c = bslashC ∧ c2 = 'n' then sub :: replaceEscNl sub rest2
    else c :: replaceEscNl sub (c2 :: rest2)

/-- Global replacement of backslash-quote by a quote (JS `.replace(/\\"/g, '"')`). -/
def unescapeQuotesL : List Char → List Char
  | [] => []
  | [c] => [c]
  | c :: c2 :: rest2 =>
    if c = bslashC ∧ c2 = quoteC then quoteC :: unescapeQuotesL rest2
    else c :: unescapeQuotesL (c2 :: rest2)

/-- The normalization applied to every raw LLM answer before fenced-block
extraction and JSON parsing (`cleanedResponse`). -/
def cleanResponse (s : String) : String :=
  jsTrim ⟨unescapeQuotesL (replaceEscNl ' ' (stripCtl s.data))⟩

/-! Section: Markdown fence extraction

`cleanedResponse.match(/```(?:json)?([\s\S]*?)```/)`: the first occurrence of
three backticks opens the fence, an optional literal `json` is consumed, and
the lazily matched group runs to the earliest following three backticks. -/

/-- The suffix immediately after the first occurrence of three backticks. -/
def afterFence : List Char → Option (List Char)
  | [] => none
  | c :: rest =>
    match rest with
    | c2 :: c3 :: rest2 =>
      if c = btC && c2 = btC && c3 = btC then some rest2
      else afterFence rest
    | _ => none

/-- The characters before the first occurrence of three backticks, or `none`
when there is no closing fence. -/
def takeToFence : List Char → Option (List Char)
  | [] => none
  | c :: rest =>
    match rest with
    | c2 :: c3 :: _ =>
      if c = btC && c2 = btC && c3 = btC then some []
      else (takeToFence rest).map (c :: ·)
    | _ => none

/-- Group 1 of `/```(?:json)?([\s\S]*?)```/` on the cleaned text, when the
regex matches. -/
def fencedGroup (l : List Char) : Option (List Char) :=
  match afterFence l with
  | none => none
  | some tail =>
    let tail' := if tail.take 4 = ['j', 's', 'o', 'n'] then tail.drop 4 else tail
    takeToFence tail'

/-- Implements `jsonMatch[1]?.trim() || cleanedResponse`: the trimmed fenced group when
a fence is present (falling back to the whole cleaned text when the trimmed
group is empty, because the empty string is falsy), else the cleaned text. -/
def extractJsonContent (cleaned : String) : String :=
  let g :=
    match fencedGroup cleaned.data with
    | some g => (⟨g⟩ : String)
    | none => cleaned
  if jsTrim g = "" then cleaned else jsTrim g

/-! Section: JSON parsing (`JSON.parse`)

A recursive-descent parser for the JSON accepted by JavaScript `JSON.parse`.
Numbers are kept as their lexeme (their numeric value is never inspected by
the schema validation, which only distinguishes strings, arrays and
objects). The fuel argument bounds recursion depth and is chosen large
enough for any input of the given length. -/

/-- A JSON value. Object members are kept in source order; duplicate keys
are resolved on lookup (the last occurrence wins, as in `JSON.parse`). -/
inductive Json where
  | null : Json
  | bool : Bool → Json
  | num : String → Json
  | str : String → Json
  | arr : List Json → Json
  | obj : List (String × Json) → Json
deriving Repr

/-- JSON insignificant whitespace. -/
def jsonWs (c : Char) : Bool :=
  c = ' ' || c = Char.ofNat 9 || c = Char.ofNat 10 || c = Char.ofNat 13

/-- Hex digit value. -/
def hexVal (c : Char) : Option Nat :=
  if '0' ≤ c ∧ c ≤ '9' then some (c.toNat - 48)
  else if 'a' ≤ c ∧ c ≤ 'f' then some (c.toNat - 87)
  else if 'A' ≤ c ∧ c ≤ 'F' then some (c.toNat - 55)
  else none

/-- Body of a JSON string after the opening quote: returns the decoded
characters and the input after the closing quote. Rejects raw control
characters and unknown escapes, as `JSON.parse` does. -/
def parseJStr (fuel : Nat) (l : List Char) : Option (List Char × List Char) :=
  match fuel with
  | 0 => none
  | fuel + 1 =>
    match l with
    | [] => none
    | c :: rest =>
      if c = quoteC then some ([], rest)
      else if c = bslashC then
        match rest with
        | [] => none
        | e :: rest2 =>
          if e = quoteC then (parseJStr fuel rest2).map (fun p => (quoteC :: p.1, p.2))
          else if e = bslashC then (parseJStr fuel rest2).map (fun p => (bslashC :: p.1, p.2))
          else if e = '/' then (parseJStr fuel rest2).map (fun p => ('/' :: p.1, p.2))
          else if e = 'b' then (parseJStr fuel rest2).map (fun p => (Char.ofNat 8 :: p.1, p.2))
          else if e = 'f' then (parseJStr fuel rest2).map (fun p => (Char.ofNat 12 :: p.1, p.2))
          else if e = 'n' then (parseJStr fuel rest2).map (fun p => (Char.ofNat 10 :: p.1, p.2))
          else if e = 'r' then (parseJStr fuel rest2).map (fun p => (Char.ofNat 13 :: p.1, p.2))
          else if e = 't' then (parseJStr fuel rest2).map (fun p => (Char.ofNat 9 :: p.1, p.2))
          else if e = 'u' then
            match rest2 with
            | h1 :: h2 :: h3 :: h4 :: rest3 =>
              match hexVal h1, hexVal h2, hexVal h3, hexVal h4 with
              | some v1, some v2, some v3, some v4 =>
                (parseJStr fuel rest3).map
                  (fun p => (Char.ofNat (((v1 * 16 + v2) * 16 + v3) * 16 + v4) :: p.1, p.2))
              | _, _, _, _ => none
            | _ => none
          else none
      else if c.toNat < 0x20 then none
      else (parseJStr fuel rest).map (fun p => (c :: p.1, p.2))

/-- A JSON number lexeme (`-?digits(.digits)?((e|E)(+|-)?digits)?`). -/
def parseJNum (l : List Char) : Option (List Char × List Char) :=
  let (sign, l1) :=
    match l with
    | c :: rest => if c = '-' then ([c], rest) else ([], l)
    | [] => ([], l)
  let intPart := l1.takeWhile Char.isDigit
  let l2 := l1.dropWhile Char.isDigit
  if intPart = [] then none
  else
    let (fracPart, l3) :=
      match l2 with
      | c :: rest =>
        if c = '.' then
          let d := rest.takeWhile Char.isDigit
          if d = [] then ([c], rest) else (c :: d, rest.dropWhile Char.isDigit)
        else ([], l2)
      | [] => ([], l2)
    if fracPart = ['.'] then none
    else
      let (expPart, l4) :=
        match l3 with
        | c :: rest =>
          if c = 'e' ∨ c = 'E' then
            let (sgn, rest') :=
              match rest with
              | s :: r' => if s = '+' ∨ s = '-' then ([s], r') else ([], rest)
              | [] => ([], rest)
            let d := rest'.takeWhile Char.isDigit
            if d = [] then ([], l3) else (c :: (sgn ++ d), rest'.dropWhile Char.isDigit)
          else ([], l3)
        | [] => ([], l3)
      let consumedExp := expPart ≠ []
      match l3 with
      | c :: _ =>
        if (c = 'e' ∨ c = 'E') ∧ ¬consumedExp then none
        else some (sign ++ intPart ++ fracPart ++ expPart, l4)
      | [] => some (sign ++ intPart ++ fracPart ++ expPart, l4)

mutual

/-- Parse one JSON value (after skipping leading whitespace). -/
def parseJVal (fuel : Nat) (l : List Char) : Option (Json × List Char) :=
  match fuel with
  | 0 => none
  | fuel + 1 =>
    let l := l.dropWhile jsonWs
    match l with
    | [] => none
    | c :: rest =>
      if c = lbraceC then parseJMembers fuel rest true
      else if c = '[' then parseJElems fuel rest true
      else if c = quoteC then (parseJStr fuel rest).map (fun p => (Json.str ⟨p.1⟩, p.2))
      else if c = 't' then
        if rest.take 3 = ['r', 'u', 'e'] then some (Json.bool true, rest.drop 3) else none
      else if c = 'f' then
        if rest.take 4 = ['a', 'l', 's', 'e'] then some (Json.bool false, rest.drop 4) else none
      else if c = 'n' then
        if rest.take 3 = ['u', 'l', 'l'] then some (Json.null, rest.drop 3) else none
      else if c = '-' ∨ c.isDigit then
        (parseJNum l).map (fun p => (Json.num ⟨p.1⟩, p.2))
      else none

/-- Parse the members of an object after the opening brace. `first` is true
until a member has been consumed, so an immediate closing brace is accepted
only at the start or after a comma was not required. -/
def parseJMembers (fuel : Nat) (l : List Char) (first : Bool) : Option (Json × List Char) :=
  match fuel with
  | 0 => none
  | fuel + 1 =>
    let l := l.dropWhile jsonWs
    match l with
    | [] => none
    | c :: rest =>
      if c = rbraceC ∧ first then some (Json.obj [], rest)
      else
        match parseJStr fuel (if c = quoteC then rest else [quoteC]) with
        | none => none
        | some (key, afterKey) =>
          if c ≠ quoteC then none
          else
            let afterKey := afterKey.dropWhile jsonWs
            match afterKey with
            | colon :: afterColon =>
              if colon = ':' then
                match parseJVal fuel afterColon with
                | none => none
                | some (v, afterVal) =>
                  let afterVal := afterVal.dropWhile jsonWs
                  match afterVal with
                  | sep :: afterSep =>
                    if sep = rbraceC then some (Json.obj [(⟨key⟩, v)], afterSep)
                    else if sep = ',' then
                      match parseJMembers fuel afterSep false with
                      | some (Json.obj kvs, restFinal) =>
                        some (Json.obj ((⟨key⟩, v) :: kvs), restFinal)
                      | _ => none
                    else none
                  | [] => none
              else none
            | [] => none

/-- Parse the elements of an array after the opening bracket. -/
def parseJElems (fuel : Nat) (l : List Char) (first : Bool) : Option (Json × List Char) :=
  match fuel with
  | 0 => none
  | fuel + 1 =>
    let l := l.dropWhile jsonWs
    match l with
    | [] => none
    | c :: _ =>
      if c = ']' ∧ first then some (Json.arr [], l.drop 1)
      else
        match parseJVal fuel l with
        | none => none
        | some (v, afterVal) =>
          let afterVal := afterVal.dropWhile jsonWs
          match afterVal with
          | sep :: afterSep =>
            if sep = ']' then some (Json.arr [v], afterSep)
            else if sep = ',' then
              match parseJElems fuel afterSep false with
              | some (Json.arr vs, restFinal) => some (Json.arr (v :: vs), restFinal)
              | _ => none
            else none
          | [] => none

end

/-- Implements `JSON.parse`: a single value surrounded by optional whitespace; trailing
input is an error. -/
def jsonParse (s : String) : Option Json :=
  match parseJVal (2 * s.data.length + 16) s.data with
  | none => none
  | some (v, rest) => if rest.dropWhile jsonWs = [] then some v else none

/-! Section: Schema validation (`CitationSchema`, `LLMResponseSchema`)

zod: `CitationSchema = z.object({ title: z.string(), url: z.string().url(),
relevance: z.string().optional() })`;
`LLMResponseSchema = z.object({ answer: z.string(),
citations: z.array(CitationSchema).min(0).max(5) })`.
Unknown keys are stripped; a missing required key or a wrong type fails. -/

/-- Object member lookup: the last occurrence of a duplicated key wins, as
for the object produced by `JSON.parse`. -/
def getField (kvs : List (String × Json)) (key : String) : Option Json :=
  (kvs.filter (fun kv => kv.1 = key)).getLast?.map (·.2)

/-- Syntactic URL validity as checked by `z.string().url()` (which accepts a
string iff `new URL(string)` succeeds): an ASCII-alphabetic first character,
scheme characters up to a mandatory colon. This models the WHATWG absolute-URL
requirement; the finer URL grammar behind the colon is not needed by any
claim. -/
def isValidUrl (s : String) : Bool :=
  match s.data with
  | [] => false
  | c :: rest =>
    let pre := rest.takeWhile (fun ch => ch ≠ ':')
    c.isAlpha && pre.all (fun ch => ch.isAlphanum || ch = '+' || ch = '-' || ch = '.') &&
      decide (pre.length < rest.length)

/-- Implements `CitationSchema.parse` on one JSON value. -/
def validateCitation (j : Json) : Option Citation :=
  match j with
  | Json.obj kvs =>
    match getField kvs "title", getField kvs "url" with
    | some (Json.str t), some (Json.str u) =>
      if isValidUrl u then
        match getField kvs "relevance" with
        | none => some ⟨t, u, none⟩
        | some (Json.str r) => some ⟨t, u, some r⟩
        | some _ => none
      else none
    | _, _ => none
  | _ => none

/-- Implements `z.array(CitationSchema)` elementwise. -/
def validateCitationList : List Json → Option (List Citation)
  | [] => some []
  | j :: js =>
    match validateCitation j, validateCitationList js with
    | some c, some cs => some (c :: cs)
    | _, _ => none

/-- The parsed and validated LLM answer. -/
structure LLMResp where
  answer : String
  citations : List Citation
deriving Repr, DecidableEq

/-- Implements `LLMResponseSchema.parse` (`answer: string`, `citations` an array of at
most 5 valid citations; `.min(0)` is vacuous for a length). -/
def validateLLMResponse (j : Json) : Option LLMResp :=
  match j with
  | Json.obj kvs =>
    match getField kvs "answer", getField kvs "citations" with
    | some (Json.str a), some (Json.arr xs) =>
      if xs.length ≤ 5 then (validateCitationList xs).map (fun cs => ⟨a, cs⟩)
      else none
    | _, _ => none
  | _ => none

/-- The whole normalization-and-parse step the service applies to a raw LLM
answer: clean, extract an optional fenced block, `JSON.parse`, validate. -/
def parseLLMResponse (raw : String) : Option LLMResp :=
  match jsonParse (extractJsonContent (cleanResponse raw)) with
  | none => none
  | some j => validateLLMResponse j

/-! Section: Best-effort answer extraction on parse failure

`llmResponse.match(/"answer"\s*:\s*"([^"]*)"/)`, then
`answerMatch[1].replace(/\\n/g, "\n").replace(/\\"/g, '"')` when the capture
is truthy (non-empty). -/

/-- The `\s` character class of JavaScript regexes (ASCII subset). -/
def regexWs (c : Char) : Bool :=
  c = ' ' || c = Char.ofNat 9 || c = Char.ofNat 10 || c = Char.ofNat 11 ||
  c = Char.ofNat 12 || c = Char.ofNat 13

/-- The literal `"answer"` as characters. -/
def answerKey : List Char := [quoteC, 'a', 'n', 's', 'w', 'e', 'r', quoteC]

/-- Try to match `"answer"\s*:\s*"([^"]*)"` at the head of the input,
returning the capture. -/
def matchAnswerAt (l : List Char) : Option (List Char) :=
  if l.take 8 = answerKey then
    match (l.drop 8).dropWhile regexWs with
    | c :: l2 =>
      if c = ':' then
        match l2.dropWhile regexWs with
        | q :: l4 =>
          if q = quoteC then
            let body := l4.takeWhile (fun ch => ch ≠ quoteC)
            if body.length < l4.length then some body else none
          else none
        | [] => none
      else none
    | [] => none
  else none

/-- Leftmost match of the answer-extraction regex over the raw text. -/
def scanAnswer : List Char → Option (List Char)
  | [] => none
  | c :: rest =>
    match matchAnswerAt (c :: rest) with
    | some b => some b
    | none => scanAnswer rest

/-- The degraded answer used when JSON parsing fails: the regex capture with
escaped newlines and quotes decoded, or the whole raw text when there is no
match or the capture is empty (falsy). -/
def extractAnswer (raw : String) : String :=
  match scanAnswer raw.data with
  | some body =>
    if body = [] then raw else ⟨unescapeQuotesL (replaceEscNl (Char.ofNat 10) body)⟩
  | none => raw

/-! Section: External collaborators

`callLLM(userMessage, systemPrompt)` (Anthropic) and `searchWeb(query)` (Exa)
are external; the environment gives each call's outcome. Database writes can
fail (persistence errors); the oracle `dbOk`, consulted once per SQL write
statement in program order, decides each one. -/

/-- The environment of one request. -/
structure Env where
  llm : String → String → Except Unit String
  searchW : String → Except Unit (List SearchResult)
  dbOk : Nat → Bool

/-- Implements `callLLM`: one model call; integration failures surface as errors. -/
def callLLM (env : Env) (userMessage : String) (systemPrompt : String) : Except Unit String :=
  env.llm userMessage systemPrompt

/-- Implements `searchWeb`: one search call; a missing API key or upstream error
surfaces as an error. -/
def searchWeb (env : Env) (query : String) : Except Unit (List SearchResult) :=
  env.searchW query

/-! Section: Prompts (verbatim from the LLM service, with braces and apostrophes
escaped) -/

/-- Implements `SEARCH_QUERY_PROMPT`. -/
def SEARCH_QUERY_PROMPT : String :=
  "You are a helpful assistant that generates effective search queries. Keep your response brief and focused.\nReturn ONLY the search query text, nothing else."

/-- Implements `ANSWER_PROMPT`. -/
def ANSWER_PROMPT : String :=
  "You are Claude, an AI assistant with access to search results.\n\nWhen responding to the user, you MUST:\n1. Carefully review all the search results provided.\n2. Synthesize the information to create a comprehensive, informative answer.\n3. Return your response in the EXACT JSON format specified below.\n4. Include 2-3 relevant citations from the search results.\n5. If the search results don\x27t contain relevant information, acknowledge this and provide your best response based on your training.\n6. Be helpful, accurate, and concise.\n\nYOUR RESPONSE MUST STRICTLY FOLLOW THIS JSON FORMAT:\n\x7b\n  \"answer\": \"Your comprehensive answer to the user\x27s question\",\n  \"citations\": [\n    \x7b\n      \"title\": \"Title of the source\",\n      \"url\": \"Full URL of the source\",\n      \"relevance\": \"Brief explanation of how this source supports your answer\"\n    \x7d\n  ]\n\x7d\n\nThe \"citations\" array must contain 2-3 of the most relevant sources that directly inform your answer.\nDO NOT include any text outside the JSON structure.\nDO NOT format the JSON with markdown code blocks."

/-- Implements `TITLE_GENERATION_PROMPT`. -/
def TITLE_GENERATION_PROMPT : String :=
  "You are a helpful assistant that generates concise, descriptive titles. Keep it under 6 words."

/-- Implements `FALLBACK_PROMPT`. -/
def FALLBACK_PROMPT : String :=
  "You are Claude, an AI assistant. Web search is currently unavailable.\n\nYOUR RESPONSE MUST STRICTLY FOLLOW THIS JSON FORMAT:\n\x7b\n  \"answer\": \"Your comprehensive answer to the user\x27s question based on your training\",\n  \"citations\": []\n\x7d\n\nDO NOT include any text outside the JSON structure."

/-- The user prompt of `generateSearchQuery`. -/
def searchQueryUserPrompt (userQuestion : String) : String :=
  "Generate a search query to find information about: \"" ++ userQuestion ++
    "\". \n                  Return ONLY the search query text, nothing else."

/-- The user prompt of `generateChatTitle`. -/
def titleUserPrompt (firstMessage : String) : String :=
  "Generate a short, descriptive title (max 6 words) for a conversation that starts with this message: \"" ++
    firstMessage ++ "\""

/-! Section: LLM service (`llm-service`) -/

/-- Implements `formatSearchResults`: numbered blocks, content truncated to 800
characters with an ellipsis marker. -/
def formatSearchResults (searchResults : List SearchResult) : String :=
  String.intercalate "\n\n"
    (searchResults.enum.map (fun p =>
      "[SEARCH RESULT " ++ toString (p.1 + 1) ++ "]\nTitle: " ++ p.2.title ++
        "\nURL: " ++ p.2.url ++ "\nContent: " ++ (p.2.content.take 800) ++
        (if p.2.content.length > 800 then "..." else "") ++ "\n" ++
        (match p.2.publishedDate with
         | some d => "Published: " ++ d
         | none => "")))

/-- Implements `formatConversationHistory`. -/
def formatConversationHistory (hist : List ConvMsg) : String :=
  if hist.isEmpty then ""
  else
    "Previous conversation:\n" ++
      String.intercalate "\n\n"
        (hist.map (fun m =>
          (if m.role = "user" then "User" else "Assistant") ++ ": " ++ m.content)) ++
      "\n\n"

/-- The user prompt of `processQueryWithSearch`. -/
def withSearchUserPrompt (query : String) (searchResults : List SearchResult)
    (hist : List ConvMsg) : String :=
  formatConversationHistory hist ++ "User\x27s current question: \"" ++ query ++
    "\"\n\nHere are search results that may help answer this question:\n\n" ++
    formatSearchResults searchResults ++
    "\n\nPlease answer the user\x27s latest question based on these search results and the conversation history (if any).\n\nIMPORTANT: Your response MUST be a valid JSON object with an \"answer\" field containing your response and a \"citations\" array with 2-3 relevant sources. Follow the exact JSON format specified in your instructions."

/-- The user prompt of `processQueryWithoutSearch`. -/
def fallbackUserPrompt (query : String) (hist : List ConvMsg) : String :=
  formatConversationHistory hist ++ "User\x27s question: \"" ++ query ++
    "\"\n  \nPlease answer the user\x27s question based on your training data."

/-- Implements `shouldSearchForQuery`: the classifier exists but the implementation
always returns true. -/
def shouldSearchForQuery (_query : String) (_hist : List ConvMsg) : Bool :=
  true

/-- Implements `.replace(/^["']|["']$/g, "")`: drop one leading and one trailing quote
or apostrophe. -/
def stripEdgeQuotes (s : String) : String :=
  let l := s.data
  let l1 :=
    match l with
    | c :: rest => if c = quoteC ∨ c = apostC then rest else l
    | [] => l
  match l1.getLast? with
  | some c => if c = quoteC ∨ c = apostC then ⟨l1.dropLast⟩ else ⟨l1⟩
  | none => ⟨l1⟩

/-- ASCII lowercasing (the label matched below is plain ASCII). -/
def asciiLower (c : Char) : Char :=
  if 'A' ≤ c ∧ c ≤ 'Z' then Char.ofNat (c.toNat + 32) else c

/-- Implements `.replace(/^Search query: /i, "")`: drop a case-insensitive
`Search query: ` label at the start. -/
def dropQueryLabel (s : String) : String :=
  if (s.data.take 14).map asciiLower = "search query: ".data then ⟨s.data.drop 14⟩ else s

/-- Implements `generateSearchQuery`: ask the model for a bare query, then strip
wrapping quotes and the label and trim. -/
def generateSearchQuery (env : Env) (userQuestion : String) : Except Unit String :=
  (callLLM env (searchQueryUserPrompt userQuestion) SEARCH_QUERY_PROMPT).map
    (fun raw => jsTrim (dropQueryLabel (stripEdgeQuotes raw)))

/-- Line terminators excluded by `.` in a JavaScript regex. -/
def isLineTerm (c : Char) : Bool :=
  c = Char.ofNat 10 || c = Char.ofNat 13 || c = Char.ofNat 0x2028 || c = Char.ofNat 0x2029

/-- Implements `.replace(/^"(.+)"$/, "$1")`: strip wrapping double quotes when the
whole string is a quoted non-empty single line. -/
def stripWrapQuotes (t : String) : String :=
  let l := t.data
  if 3 ≤ l.length ∧ l.head? = some quoteC ∧ l.getLast? = some quoteC ∧
      ((l.drop 1).dropLast.all (fun ch => !(isLineTerm ch))) then
    ⟨(l.drop 1).dropLast⟩
  else t

/-- Implements `generateChatTitle`: short title from the first message, trimmed, with
wrapping quotes stripped. -/
def generateChatTitle (env : Env) (firstMessage : String) : Except Unit String :=
  (callLLM env (titleUserPrompt firstMessage) TITLE_GENERATION_PROMPT).map
    (fun raw => stripWrapQuotes (jsTrim raw))

/-- Result of `processQueryWithSearch`: the `citations` key is absent
(`none`) on the degraded parse-failure path. -/
structure QueryResult where
  answer : String
  citations : Option (List Citation)
  searchQuery : Option String
deriving Repr, DecidableEq

/-- Implements `processQueryWithSearch`: prompt with formatted results, call the model,
normalize/parse/validate, degrade to regex extraction on failure. The
`callLLM` rejection propagates (it is awaited outside the try block). -/
def processQueryWithSearch (env : Env) (query : String)
    (searchResults : List SearchResult) (hist : List ConvMsg) : Except Unit QueryResult :=
  match callLLM env (withSearchUserPrompt query searchResults hist) ANSWER_PROMPT with
  | Except.error e => Except.error e
  | Except.ok raw =>
    match parseLLMResponse raw with
    | some v => Except.ok ⟨v.answer, some v.citations, some query⟩
    | none => Except.ok ⟨extractAnswer raw, none, some query⟩

/-- Result of `processQueryWithoutSearch`: both paths produce a `citations`
list. -/
structure FbResult where
  answer : String
  citations : List Citation
deriving Repr, DecidableEq

/-- Implements `processQueryWithoutSearch`: the no-search fallback prompt with the same
normalization logic; parse failure degrades to regex extraction with no
citations. -/
def processQueryWithoutSearch (env : Env) (query : String)
    (hist : List ConvMsg) : Except Unit FbResult :=
  match callLLM env (fallbackUserPrompt query hist) FALLBACK_PROMPT with
  | Except.error e => Except.error e
  | Except.ok raw =>
    match parseLLMResponse raw with
    | some v => Except.ok ⟨v.answer, v.citations⟩
    | none => Except.ok ⟨extractAnswer raw, []⟩

/-- Result of `processUserMessage`. Keys that a branch leaves undefined are
`none`. -/
structure ProcResult where
  answer : String
  citations : Option (List Citation)
  searchQuery : Option String
  searchResults : Option (List SearchResult)
deriving Repr, DecidableEq

/-- Implements `processUserMessage`: always searches (the decision is the constant
true), falling back to the no-search path when any stage of the search path
throws; the fallback's own citations are discarded (`citations: []`). -/
def processUserMessage (env : Env) (message : String) (hist : List ConvMsg) :
    Except Unit ProcResult :=
  let tryBlock : Except Unit ProcResult :=
    if shouldSearchForQuery message hist then
      match generateSearchQuery env message with
      | Except.error e => Except.error e
      | Except.ok searchQuery =>
        match searchWeb env searchQuery with
        | Except.error e => Except.error e
        | Except.ok searchResults =>
          match processQueryWithSearch env message searchResults hist with
          | Except.error e => Except.error e
          | Except.ok r => Except.ok ⟨r.answer, r.citations, some searchQuery, some searchResults⟩
    else
      match processQueryWithoutSearch env message hist with
      | Except.error e => Except.error e
      | Except.ok r => Except.ok ⟨r.answer, some [], none, none⟩
  match tryBlock with
  | Except.ok r => Except.ok r
  | Except.error _ =>
    match processQueryWithoutSearch env message hist with
    | Except.error e => Except.error e
    | Except.ok r => Except.ok ⟨r.answer, some [], none, none⟩

/-! Section: Conversation store (`schema.ts` rows, in-memory relational model)

Rows live in insertion-ordered lists; `nextId` feeds generated ids
(`uuidv4`). Foreign keys: inserting a message whose chat does not exist
fails, as the `references` clause makes Postgres do. -/

/-- A `chats` row. -/
structure StoredChat where
  id : String
  title : String
deriving Repr, DecidableEq

/-- A `messages` row. -/
structure StoredMsg where
  id : String
  chatId : String
  role : String
  content : String
  searchQuery : Option String
  orderIndex : Int
deriving Repr, DecidableEq

/-- A `citations` row. -/
structure StoredCit where
  id : String
  messageId : String
  title : Option String
  url : String
  relevance : Option String
deriving Repr, DecidableEq

/-- A `searchResults` row. -/
structure StoredSnap where
  id : String
  messageId : String
  query : String
  results : List SearchResult
deriving Repr, DecidableEq

/-- The database state. -/
structure Store where
  chats : List StoredChat
  msgs : List StoredMsg
  cits : List StoredCit
  snaps : List StoredSnap
  nextId : Nat
deriving Repr, DecidableEq

/-- A generated id (`uuidv4()`), with the generator state advanced. -/
def freshId (s : Store) : String × Store :=
  ("id" ++ toString s.nextId, { s with nextId := s.nextId + 1 })

/-- Whether a chat row with this id exists. -/
def chatExists (s : Store) (cid : String) : Bool :=
  s.chats.any (fun c => c.id = cid)

/-- Input to `addMessageToChat` (the `ChatMessage` interface). -/
structure MsgInput where
  id : Option String := none
  role : String
  content : String
  searchQuery : Option String := none
  citations : Option (List Citation) := none
  orderIndex : Option Int := none
deriving Repr, DecidableEq

/-- The `SELECT ... ORDER BY order_index DESC LIMIT 1` read used when no
explicit order index is supplied: current maximum plus one, or zero for an
empty chat. -/
def nextOrderIndex (s : Store) (cid : String) : Int :=
  match ((s.msgs.filter (fun m => m.chatId = cid)).map (fun m => m.orderIndex)).max? with
  | some mx => mx + 1
  | none => 0

/-- The citation inserts of `addMessageToChat`, one SQL write each, stopping
at the first failure (`Promise.all` rejects on any failure; the sequential
order of the surviving partial writes is an abstraction). -/
def insertCitationsLoop (env : Env) (s : Store) (k : Nat) (mid : String) :
    List Citation → Store × Nat × Except Unit Unit
  | [] => (s, k, Except.ok ())
  | c :: cs =>
    if env.dbOk k then
      insertCitationsLoop env
        { (freshId s).2 with
          cits := (freshId s).2.cits ++ [⟨(freshId s).1, mid, some c.title, c.url, c.relevance⟩] }
        (k + 1) mid cs
    else ((freshId s).2, k + 1, Except.error ())

/-- The message id of `addMessageToChat`: the given one, else generated
(`message.id ?? uuidv4()`). -/
def genMsgId (s : Store) (m : MsgInput) : String × Store :=
  match m.id with
  | some i => (i, s)
  | none => freshId s

/-- Implements `addMessageToChat`: compute the order index if absent, insert the
message row, then the citation rows when a non-empty list is given. -/
def addMessageToChat (env : Env) (s : Store) (k : Nat) (cid : String) (m : MsgInput) :
    Store × Nat × Except Unit String :=
  let messageId := (genMsgId s m).1
  let s0 := (genMsgId s m).2
  let oi := m.orderIndex.getD (nextOrderIndex s cid)
  if env.dbOk k && chatExists s cid then
    let s1 := { s0 with msgs := s0.msgs ++ [⟨messageId, cid, m.role, m.content, m.searchQuery, oi⟩] }
    match m.citations with
    | some cs =>
      if cs.length > 0 then
        match insertCitationsLoop env s1 (k + 1) messageId cs with
        | (s2, k2, Except.ok _) => (s2, k2, Except.ok messageId)
        | (s2, k2, Except.error e) => (s2, k2, Except.error e)
      else (s1, k + 1, Except.ok messageId)
    | none => (s1, k + 1, Except.ok messageId)
  else (s0, k + 1, Except.error ())

/-- Implements `addSearchResultsToMessage`: one snapshot row. -/
def addSearchResultsToMessage (env : Env) (s : Store) (k : Nat) (mid : String)
    (query : String) (results : List SearchResult) : Store × Nat × Except Unit Unit :=
  if env.dbOk k then
    ({ (freshId s).2 with snaps := (freshId s).2.snaps ++ [⟨(freshId s).1, mid, query, results⟩] },
      k + 1, Except.ok ())
  else ((freshId s).2, k + 1, Except.error ())

/-- A message as returned by `getChatById`: citations always a list. -/
structure MsgOut where
  id : String
  role : String
  content : String
  searchQuery : Option String
  citations : List Citation
  orderIndex : Int
deriving Repr, DecidableEq

/-- A chat as returned by `getChatById`. -/
structure ChatOut where
  id : String
  title : String
  messages : List MsgOut
deriving Repr, DecidableEq

/-- The order used by `ORDER BY order_index` (ascending). -/
def msgLe (a b : StoredMsg) : Prop :=
  a.orderIndex ≤ b.orderIndex

instance : DecidableRel msgLe :=
  fun a b => inferInstanceAs (Decidable (a.orderIndex ≤ b.orderIndex))

instance : IsTotal StoredMsg msgLe :=
  ⟨fun a b => Int.le_total a.orderIndex b.orderIndex⟩

instance : IsTrans StoredMsg msgLe :=
  ⟨fun _ _ _ hab hbc => le_trans hab hbc⟩

/-- The stored citations of one message, shaped as the service returns them
(`title ?? ""`, `relevance ?? undefined`). -/
def citationsFor (s : Store) (mid : String) : List Citation :=
  (s.cits.filter (fun c => c.messageId = mid)).map
    (fun c => ⟨c.title.getD "", c.url, c.relevance⟩)

/-- Implements `getChatById`: the chat row, its messages ordered by ascending
`orderIndex`, each with its (possibly empty, never missing) citation list. -/
def getChatById (s : Store) (cid : String) : Option ChatOut :=
  match s.chats.find? (fun c => c.id = cid) with
  | none => none
  | some chat =>
    let sorted := List.insertionSort msgLe (s.msgs.filter (fun m => m.chatId = cid))
    some ⟨chat.id, chat.title,
      sorted.map (fun m => ⟨m.id, m.role, m.content, m.searchQuery, citationsFor s m.id, m.orderIndex⟩)⟩

/-- Implements `updateChatTitle` (service): `UPDATE chats SET title WHERE id`; zero
matched rows is not an error. -/
def updateChatTitle (env : Env) (s : Store) (k : Nat) (cid : String) (newTitle : String) :
    Store × Nat × Except Unit Unit :=
  if env.dbOk k then
    ({ s with chats := s.chats.map (fun c => if c.id = cid then { c with title := newTitle } else c) },
      k + 1, Except.ok ())
  else (s, k + 1, Except.error ())

/-- Implements `deleteChat` (service): `DELETE FROM chats WHERE id`, cascading to the
chat's messages and their citations and snapshots. -/
def deleteChat (env : Env) (s : Store) (k : Nat) (cid : String) :
    Store × Nat × Except Unit Unit :=
  if env.dbOk k then
    let deadMsgIds := (s.msgs.filter (fun m => m.chatId = cid)).map (fun m => m.id)
    ({ chats := s.chats.filter (fun c => !(c.id = cid)),
       msgs := s.msgs.filter (fun m => !(m.chatId = cid)),
       cits := s.cits.filter (fun c => !(deadMsgIds.contains c.messageId)),
       snaps := s.snaps.filter (fun sn => !(deadMsgIds.contains sn.messageId)),
       nextId := s.nextId }, k + 1, Except.ok ())
  else (s, k + 1, Except.error ())

/-! Section: Router (`chatRouter` procedures) -/

/-- The `{ success: true }` result of the title/delete mutations. -/
structure RouterOk where
  success : Bool
deriving Repr, DecidableEq

/-- Input of the `sendMessage` mutation (an absent `conversationHistory` and
an empty one are indistinguishable downstream, so both are the empty list). -/
structure SendInput where
  content : String
  chatId : String
  conversationHistory : List ConvMsg := []
deriving Repr, DecidableEq

/-- The result of the `sendMessage` mutation. -/
structure SendResult where
  success : Bool
  chatId : String
  response : String
  citations : List Citation
  searchQuery : Option String
deriving Repr, DecidableEq

/-- The apology persisted and returned when message processing fails. -/
def apologyText : String :=
  "I\x27m sorry, I encountered an error processing your request. Could you please try asking in a different way?"

/-- Implements `getChat`: read the chat or throw a not-found error. -/
def routerGetChat (s : Store) (cid : String) : Except Unit ChatOut :=
  match getChatById s cid with
  | none => Except.error ()
  | some chat => Except.ok chat

/-- Implements `updateChatTitle` (router): always `{ success: true }` when the write
statement succeeds, found or not. -/
def routerUpdateChatTitle (env : Env) (s : Store) (k : Nat) (cid : String)
    (title : String) : Store × Nat × Except Unit RouterOk :=
  match updateChatTitle env s k cid title with
  | (s', k', Except.ok _) => (s', k', Except.ok ⟨true⟩)
  | (s', k', Except.error e) => (s', k', Except.error e)

/-- Implements `deleteChat` (router): always `{ success: true }` when the delete
statement succeeds, found or not. -/
def routerDeleteChat (env : Env) (s : Store) (k : Nat) (cid : String) :
    Store × Nat × Except Unit RouterOk :=
  match deleteChat env s k cid with
  | (s', k', Except.ok _) => (s', k', Except.ok ⟨true⟩)
  | (s', k', Except.error e) => (s', k', Except.error e)

/-- The snapshot save of `sendMessage`:
`if (response.searchQuery && response.searchResults)`; the empty string is
falsy. -/
def saveSnapshotStep (env : Env) (s : Store) (k : Nat) (mid : String)
    (resp : ProcResult) : Store × Nat × Except Unit Unit :=
  match resp.searchQuery, resp.searchResults with
  | some q, some rs =>
    if q = "" then (s, k, Except.ok ())
    else addSearchResultsToMessage env s k mid q rs
  | _, _ => (s, k, Except.ok ())

/-- The title update of `sendMessage`: regenerate the title only when the
chat (as just read back) holds at most 3 messages. -/
def titleStep (env : Env) (s : Store) (k : Nat) (input : SendInput) :
    Store × Nat × Except Unit Unit :=
  match getChatById s input.chatId with
  | some chat =>
    if chat.messages.length ≤ 3 then
      match generateChatTitle env input.content with
      | Except.error e => (s, k, Except.error e)
      | Except.ok title => updateChatTitle env s k input.chatId title
    else (s, k, Except.ok ())
  | none => (s, k, Except.ok ())

/-- The body of `sendMessage`'s try block: save the user message, process
it, save the assistant message (with citations), save the raw search
snapshot, maybe regenerate the title, and report success. Any throw carries
the state already written. -/
def sendMessageTry (env : Env) (s : Store) (k : Nat) (input : SendInput) :
    Store × Nat × Except Unit SendResult :=
  match addMessageToChat env s k input.chatId { role := "user", content := input.content } with
  | (s1, k1, Except.error e) => (s1, k1, Except.error e)
  | (s1, k1, Except.ok _) =>
    match processUserMessage env input.content input.conversationHistory with
    | Except.error e => (s1, k1, Except.error e)
    | Except.ok resp =>
      match addMessageToChat env s1 k1 input.chatId
          { role := "assistant", content := resp.answer, searchQuery := resp.searchQuery,
            citations := resp.citations } with
      | (s2, k2, Except.error e) => (s2, k2, Except.error e)
      | (s2, k2, Except.ok messageId) =>
        match saveSnapshotStep env s2 k2 messageId resp with
        | (s3, k3, Except.error e) => (s3, k3, Except.error e)
        | (s3, k3, Except.ok _) =>
          match titleStep env s3 k3 input with
          | (s4, k4, Except.error e) => (s4, k4, Except.error e)
          | (s4, k4, Except.ok _) =>
            (s4, k4, Except.ok ⟨true, input.chatId, resp.answer, resp.citations.getD [],
              resp.searchQuery⟩)

/-- Implements `sendMessage`: the try block, with a top-level catch that persists the
apology as the assistant reply and reports `success: false`; only a failure
of that last save propagates as a thrown error. -/
def sendMessage (env : Env) (s : Store) (k : Nat) (input : SendInput) :
    Store × Nat × Except Unit SendResult :=
  match sendMessageTry env s k input with
  | (s', k', Except.ok r) => (s', k', Except.ok r)
  | (s', k', Except.error _) =>
    match addMessageToChat env s' k' input.chatId { role := "assistant", content := apologyText } with
    | (s'', k'', Except.ok _) =>
      (s'', k'', Except.ok ⟨false, input.chatId, apologyText, [], none⟩)
    | (s'', k'', Except.error _) => (s'', k'', Except.error ())

/-! Section: Derived observations and fixtures used by the theorems -/

/-- The `getChat` query as a state-threaded operation: its handler performs
only `SELECT`s, so the store passes through unchanged. -/
def routerGetChatOp (s : Store) (cid : String) : Store × Except Unit ChatOut :=
  (s, routerGetChat s cid)

/-- The title of a chat row, when present. -/
def chatTitle (s : Store) (cid : String) : Option String :=
  (s.chats.find? (fun c => c.id = cid)).map (fun c => c.title)

/-- Referential integrity of the `chat_id` foreign key: every message row
points at an existing chat (the schema's `references` clause enforces it). -/
def chatFK (s : Store) : Prop :=
  ∀ m ∈ s.msgs, chatExists s m.chatId = true

/-- Modelled from the spec: the normalization step as the specification
words it, removing exactly the control characters in the code-point range
0x00–0x13 (instead of the code's 0x00–0x19) before the same escaped-newline
and escaped-quote replacements and trim. Used only to compare the claimed
range with the implemented one. -/
def cleanResponseClaimed (s : String) : String :=
  jsTrim ⟨unescapeQuotesL (replaceEscNl ' ' (s.data.filter (fun c => !(c.toNat ≤ 0x13))))⟩

/-- A store holding one chat and nothing else. -/
def wStore : Store := ⟨[⟨"c1", "New Chat"⟩], [], [], [], 0⟩

/-- An environment whose LLM and search clients always fail and whose
database always succeeds. -/
def envAllFail : Env := ⟨fun _ _ => Except.error (), fun _ => Except.error (), fun _ => true⟩

/-- An environment whose LLM returns the empty string and whose search
client always fails. -/
def envEmptyLLM : Env := ⟨fun _ _ => Except.ok "", fun _ => Except.error (), fun _ => true⟩

/-- A well-formed JSON answer with no citations, as LLM output. -/
def goodJsonText : String := "\x7b\"answer\":\"ok\",\"citations\":[]\x7d"

/-- An environment whose LLM always returns `goodJsonText` and whose search
client always fails. -/
def envFbOk : Env := ⟨fun _ _ => Except.ok goodJsonText, fun _ => Except.error (), fun _ => true⟩

/-- An environment whose LLM always returns `goodJsonText` and whose search
client returns no hits. -/
def envAllOk : Env := ⟨fun _ _ => Except.ok goodJsonText, fun _ => Except.ok [], fun _ => true⟩

/-- The fenced LLM output of the extraction scenario. -/
def fencedText : String := "```json\n\x7b\"answer\":\"hi\",\"citations\":[]\x7d\n```"

/-- An environment whose LLM always returns `fencedText`. -/
def envFenced : Env := ⟨fun _ _ => Except.ok fencedText, fun _ => Except.error (), fun _ => true⟩

/-- A store with one chat, two messages with distinct order indices (written
out of order) and one citation on the second message. -/
def wStoreMsgs : Store :=
  ⟨[⟨"c1", "T"⟩],
   [⟨"m2", "c1", "assistant", "a", none, 1⟩, ⟨"m1", "c1", "user", "u", none, 0⟩],
   [⟨"ct1", "m2", some "t", "https://e.com", none⟩],
   [], 0⟩

/-! Theorems. -/

theorem mem_replaceEscNl : ∀ (l : List Char) (sub c : Char),
    c ∈ replaceEscNl sub l → c ∈ l ∨ c = sub
  | [], _, _ => by simp [replaceEscNl]
  | [a], _, c => by
    simp only [replaceEscNl]
    exact fun h => Or.inl h
  | a :: b :: rest, sub, c => by
    simp only [replaceEscNl]
    split
    · intro h
      rcases List.mem_cons.mp h with h | h
      · exact Or.inr h
      · rcases mem_replaceEscNl rest sub c h with h' | h'
        · exact Or.inl (by simp [h'])
        · exact Or.inr h'
    · intro h
      rcases List.mem_cons.mp h with h | h
      · exact Or.inl (by simp [h])
      · rcases mem_replaceEscNl (b :: rest) sub c h with h' | h'
        · exact Or.inl (List.mem_cons_of_mem _ h')
        · exact Or.inr h'

theorem mem_unescapeQuotesL : ∀ (l : List Char) (c : Char),
    c ∈ unescapeQuotesL l → c ∈ l ∨ c = quoteC
  | [], _ => by simp [unescapeQuotesL]
  | [a], c => by
    simp only [unescapeQuotesL]
    exact fun h => Or.inl h
  | a :: b :: rest, c => by
    simp only [unescapeQuotesL]
    split
    · intro h
      rcases List.mem_cons.mp h with h | h
      · exact Or.inr h
      · rcases mem_unescapeQuotesL rest c h with h' | h'
        · exact Or.inl (by simp [h'])
        · exact Or.inr h'
    · intro h
      rcases List.mem_cons.mp h with h | h
      · exact Or.inl (by simp [h])
      · rcases mem_unescapeQuotesL (b :: rest) c h with h' | h'
        · exact Or.inl (List.mem_cons_of_mem _ h')
        · exact Or.inr h'

theorem mem_jsTrim {s : String} {c : Char} (h : c ∈ (jsTrim s).data) : c ∈ s.data := by
  simp only [jsTrim] at h
  rw [List.mem_reverse] at h
  have h1 : c ∈ (s.data.dropWhile jsWs).reverse := List.Sublist.mem h (List.dropWhile_sublist _)
  rw [List.mem_reverse] at h1
  exact List.Sublist.mem h1 (List.dropWhile_sublist _)

theorem mem_stripCtl {l : List Char} {c : Char} (h : c ∈ stripCtl l) : 0x19 < c.toNat := by
  have := (List.mem_filter.mp h).2
  simpa [Nat.lt_iff_add_one_le, Nat.not_le] using this

/-- Claim C3, counterexample: the normalization does not remove exactly the
control characters 0x00–0x13 — it also removes 0x14 (the code's regex
reaches up to 0x19): on the input `a\u0014b` the implementation and the
claimed normalization disagree. -/
theorem cleanResponse_range_cex :
    cleanResponse "a\u0014b" = "ab" ∧
    cleanResponseClaimed "a\u0014b" = "a\u0014b" ∧
    cleanResponse "a\u0014b" ≠ cleanResponseClaimed "a\u0014b" := by
  refine ⟨rfl, rfl, ?_⟩
  decide

/-- Claim C3 (amended): the normalization applied to every raw LLM answer
removes exactly the control characters in 0x00–0x19 (every character it
outputs has a larger code point, 0x1A survives), replaces literal
backslash-n sequences by spaces, unescapes escaped double quotes, and it
runs before fenced-block extraction and JSON parsing (the parse result
depends on the raw text only through the cleaned text). -/
theorem cleanResponse_normalization_spec :
    (∀ s : String, ∀ c ∈ (cleanResponse s).data, 0x19 < c.toNat) ∧
    cleanResponse "\u0013\u0019\u001Ab" = "\u001Ab" ∧
    cleanResponse "a\\nb" = "a b" ∧
    cleanResponse "a\\\"b" = "a\"b" ∧
    (∀ s t : String, cleanResponse s = cleanResponse t →
      parseLLMResponse s = parseLLMResponse t) := by
  refine ⟨?_, rfl, rfl, rfl, ?_⟩
  · intro s c h
    have h1 := mem_jsTrim h
    rcases mem_unescapeQuotesL _ _ h1 with h2 | h2
    · rcases mem_replaceEscNl _ _ _ h2 with h3 | h3
      · exact mem_stripCtl h3
      · subst h3; decide
    · subst h2; decide
  · intro s t h
    simp only [parseLLMResponse, h]

/-- Witness for the amended C3 theorem at concrete inputs. -/
theorem cleanResponse_normalization_witness :
    0x19 < Char.toNat 'x' ∧ parseLLMResponse "a" = parseLLMResponse "a" :=
  ⟨cleanResponse_normalization_spec.1 "x" 'x' (by decide),
   cleanResponse_normalization_spec.2.2.2.2 "a" "a" rfl⟩

/-- Claim C4: an LLM answer consisting of the fenced text
` ```json\n{"answer":"hi","citations":[]}\n``` ` is normalized by extracting
the fenced content and parsing it, yielding exactly the answer `hi` with no
citations — both for the bare parse step and through
`processQueryWithSearch`. -/
theorem fenced_json_extraction_spec :
    parseLLMResponse fencedText = some ⟨"hi", []⟩ ∧
    processQueryWithSearch envFenced "hi there" [] [] =
      Except.ok ⟨"hi", some [], some "hi there"⟩ := by
  exact ⟨rfl, rfl⟩

theorem chatExists_false_forall {s : Store} {cid : String}
    (hmiss : chatExists s cid = false) : ∀ c ∈ s.chats, c.id ≠ cid := by
  intro c hc he
  have : chatExists s cid = true := by
    simp only [chatExists, List.any_eq_true]
    exact ⟨c, hc, by simp [he]⟩
  rw [hmiss] at this
  cases this

/-- Claim C10: on a chat id with no row, the `updateChatTitle` and
`deleteChat` mutations leave the store unchanged and return
`{ success: true }` without an error, while `getChat` alone fails. -/
theorem unknown_chat_ops_spec (env : Env) (s : Store) (k : Nat) (cid t : String)
    (hdb : env.dbOk k = true) (hmiss : chatExists s cid = false) (hfk : chatFK s) :
    routerUpdateChatTitle env s k cid t = (s, k + 1, Except.ok ⟨true⟩) ∧
    routerDeleteChat env s k cid = (s, k + 1, Except.ok ⟨true⟩) ∧
    routerGetChat s cid = Except.error () := by
  have hall := chatExists_false_forall hmiss
  have hmsg : ∀ m ∈ s.msgs, m.chatId ≠ cid := by
    intro m hm he
    have := hfk m hm
    rw [he, hmiss] at this
    cases this
  refine ⟨?_, ?_, ?_⟩
  · simp only [routerUpdateChatTitle, updateChatTitle, hdb, if_true]
    have hmap : s.chats.map (fun c => if c.id = cid then { c with title := t } else c) = s.chats := by
      have : ∀ c ∈ s.chats,
          (if c.id = cid then { c with title := t } else c) = id c :=
        fun c hc => by simp [hall c hc]
      rw [List.map_congr_left this]
      exact List.map_id _
    rw [hmap]
  · simp only [routerDeleteChat, deleteChat, hdb, if_true]
    have h1 : s.chats.filter (fun c => !(c.id = cid)) = s.chats :=
      List.filter_eq_self.mpr (fun c hc => by simp [hall c hc])
    have h2 : s.msgs.filter (fun m => decide (m.chatId = cid)) = [] :=
      List.filter_eq_nil_iff.mpr (fun m hm => by simp [hmsg m hm])
    have h3 : s.msgs.filter (fun m => !(m.chatId = cid)) = s.msgs :=
      List.filter_eq_self.mpr (fun m hm => by simp [hmsg m hm])
    rw [h1, h2, h3]
    simp only [List.map_nil]
    have h4 : s.cits.filter (fun c => !(([] : List String).contains c.messageId)) = s.cits :=
      List.filter_eq_self.mpr (fun c _ => by simp)
    have h5 : s.snaps.filter (fun sn => !(([] : List String).contains sn.messageId)) = s.snaps :=
      List.filter_eq_self.mpr (fun sn _ => by simp)
    rw [h4, h5]
  · simp only [routerGetChat, getChatById]
    have : s.chats.find? (fun c => c.id = cid) = none :=
      List.find?_eq_none.mpr (fun c hc => by simp [hall c hc])
    rw [this]

/-- Witness for the C10 theorem: a store holding only chat `c1`, queried at
the absent id `nope`. -/
theorem unknown_chat_ops_witness :
    routerUpdateChatTitle envAllFail wStore 0 "nope" "t" = (wStore, 1, Except.ok ⟨true⟩) ∧
    routerDeleteChat envAllFail wStore 0 "nope" = (wStore, 1, Except.ok ⟨true⟩) ∧
    routerGetChat wStore "nope" = Except.error () :=
  unknown_chat_ops_spec envAllFail wStore 0 "nope" "t" rfl (by decide)
    (fun m hm => by simp [wStore] at hm)

/-- Claim C7: the `getChat` remote read is a pure, idempotent read — two
calls without intervening writes return identical results and leave the
store untouched. -/
theorem getChat_idempotent_spec (s s₁ s₂ : Store) (cid : String)
    (r₁ r₂ : Except Unit ChatOut)
    (h₁ : routerGetChatOp s cid = (s₁, r₁)) (h₂ : routerGetChatOp s₁ cid = (s₂, r₂)) :
    r₂ = r₁ ∧ s₁ = s ∧ s₂ = s := by
  simp only [routerGetChatOp, Prod.mk.injEq] at h₁ h₂
  obtain ⟨hs1, hr1⟩ := h₁
  obtain ⟨hs2, hr2⟩ := h₂
  subst hs1
  subst hs2
  subst hr1
  subst hr2
  exact ⟨rfl, rfl, rfl⟩

/-- Witness for the C7 theorem on a concrete store. -/
theorem getChat_idempotent_witness :
    routerGetChat wStore "c1" = routerGetChat wStore "c1" ∧
    wStore = wStore ∧ wStore = wStore :=
  getChat_idempotent_spec wStore wStore wStore "c1" (routerGetChat wStore "c1")
    (routerGetChat wStore "c1") rfl rfl

theorem insertCitationsLoop_frame (env : Env) (mid : String) :
    ∀ (cs : List Citation) (s : Store) (k : Nat),
      (insertCitationsLoop env s k mid cs).1.msgs = s.msgs ∧
      (insertCitationsLoop env s k mid cs).1.chats = s.chats ∧
      (insertCitationsLoop env s k mid cs).1.snaps = s.snaps
  | [], s, k => ⟨rfl, rfl, rfl⟩
  | c :: cs, s, k => by
    simp only [insertCitationsLoop]
    split
    · exact insertCitationsLoop_frame env mid cs _ _
    · exact ⟨rfl, rfl, rfl⟩

theorem addMessageToChat_ok_inv {env : Env} {s : Store} {k : Nat} {cid : String}
    {m : MsgInput} {s' : Store} {k' : Nat} {mid : String}
    (h : addMessageToChat env s k cid m = (s', k', Except.ok mid)) :
    s'.msgs = s.msgs ++
      [⟨mid, cid, m.role, m.content, m.searchQuery, m.orderIndex.getD (nextOrderIndex s cid)⟩] ∧
    s'.chats = s.chats ∧ s'.snaps = s.snaps ∧ mid = (genMsgId s m).1 := by
  have hg1 : (genMsgId s m).2.msgs = s.msgs := by
    unfold genMsgId
    cases m.id <;> rfl
  have hg2 : (genMsgId s m).2.chats = s.chats := by
    unfold genMsgId
    cases m.id <;> rfl
  have hg3 : (genMsgId s m).2.snaps = s.snaps := by
    unfold genMsgId
    cases m.id <;> rfl
  simp only [addMessageToChat] at h
  split at h
  · split at h
    · split at h
      · split at h
        · rename_i s2k2 a heqloop
          have hfr := insertCitationsLoop_frame env (genMsgId s m).1 (by assumption)
            { (genMsgId s m).2 with
              msgs := (genMsgId s m).2.msgs ++
                [⟨(genMsgId s m).1, cid, m.role, m.content, m.searchQuery,
                  m.orderIndex.getD (nextOrderIndex s cid)⟩] } (k + 1)
          rw [heqloop] at hfr
          obtain ⟨h1, h2, h3⟩ := hfr
          simp only [Prod.mk.injEq, Except.ok.injEq] at h
          obtain ⟨hs, -, hmid⟩ := h
          subst hs
          subst hmid
          refine ⟨?_, ?_, ?_, rfl⟩
          · rw [h1]
            simp [hg1]
          · rw [h2]
            exact hg2
          · rw [h3]
            exact hg3
        · exact absurd h (by simp)
      · simp only [Prod.mk.injEq, Except.ok.injEq] at h
        obtain ⟨hs, -, hmid⟩ := h
        subst hs
        subst hmid
        refine ⟨by simp [hg1], hg2, hg3, rfl⟩
    · simp only [Prod.mk.injEq, Except.ok.injEq] at h
      obtain ⟨hs, -, hmid⟩ := h
      subst hs
      subst hmid
      refine ⟨by simp [hg1], hg2, hg3, rfl⟩
  · exact absurd h (by simp)

theorem addMessageToChat_ok_chatExists {env : Env} {s : Store} {k : Nat} {cid : String}
    {m : MsgInput} {s' : Store} {k' : Nat} {mid : String}
    (h : addMessageToChat env s k cid m = (s', k', Except.ok mid)) :
    chatExists s cid = true := by
  by_cases hc : (env.dbOk k && chatExists s cid) = true
  · exact (Eq.mp (Bool.and_eq_true _ _) hc).2
  · simp only [addMessageToChat, hc, if_false] at h
    exact absurd h (by simp)

theorem insertCitationsLoop_ok (env : Env) (hdb : ∀ n, env.dbOk n = true) (mid : String) :
    ∀ (cs : List Citation) (s : Store) (k : Nat),
      ∃ s2 k2, insertCitationsLoop env s k mid cs = (s2, k2, Except.ok ())
  | [], s, k => ⟨s, k, rfl⟩
  | c :: cs, s, k => by
    simp only [insertCitationsLoop, hdb, if_true]
    exact insertCitationsLoop_ok env hdb mid cs _ _

theorem addMessageToChat_ok_exists (env : Env) (s : Store) (k : Nat) (cid : String)
    (m : MsgInput) (hdb : ∀ n, env.dbOk n = true) (hex : chatExists s cid = true) :
    ∃ s' k', addMessageToChat env s k cid m = (s', k', Except.ok (genMsgId s m).1) := by
  simp only [addMessageToChat, hdb, hex, Bool.and_self, if_true]
  cases hc : m.citations with
  | none => exact ⟨_, _, rfl⟩
  | some cs =>
    by_cases hlen : cs.length > 0
    · simp only [hlen, if_true]
      obtain ⟨s2, k2, hl⟩ := insertCitationsLoop_ok env hdb (genMsgId s m).1 cs
        { (genMsgId s m).2 with
          msgs := (genMsgId s m).2.msgs ++
            [⟨(genMsgId s m).1, cid, m.role, m.content, m.searchQuery,
              m.orderIndex.getD (nextOrderIndex s cid)⟩] } (k + 1)
      rw [hl]
      exact ⟨s2, k2, rfl⟩
    · simp only [hlen, if_false]
      exact ⟨_, _, rfl⟩

/-- Claim C6: when `addMessage` is not given an explicit order index, the
stored message gets the chat's current maximum order index plus one, and 0
for a chat with no messages. -/
theorem addMessage_orderIndex_spec (env : Env) (s : Store) (k : Nat) (cid : String)
    (m : MsgInput) (hdb : ∀ n, env.dbOk n = true) (hex : chatExists s cid = true)
    (hoi : m.orderIndex = none) :
    ∃ s' k' mid stored,
      addMessageToChat env s k cid m = (s', k', Except.ok mid) ∧
      s'.msgs = s.msgs ++ [stored] ∧
      stored.orderIndex = nextOrderIndex s cid ∧
      (s.msgs.filter (fun m2 => m2.chatId = cid) = [] → stored.orderIndex = 0) ∧
      (∀ mx, ((s.msgs.filter (fun m2 => m2.chatId = cid)).map (fun m2 => m2.orderIndex)).max? =
          some mx →
        mx ∈ (s.msgs.filter (fun m2 => m2.chatId = cid)).map (fun m2 => m2.orderIndex) ∧
        (∀ y ∈ (s.msgs.filter (fun m2 => m2.chatId = cid)).map (fun m2 => m2.orderIndex), y ≤ mx) ∧
        stored.orderIndex = mx + 1) := by
  obtain ⟨s', k', hok⟩ := addMessageToChat_ok_exists env s k cid m hdb hex
  obtain ⟨hmsgs, -, -, -⟩ := addMessageToChat_ok_inv hok
  refine ⟨s', k', (genMsgId s m).1,
    ⟨(genMsgId s m).1, cid, m.role, m.content, m.searchQuery,
      m.orderIndex.getD (nextOrderIndex s cid)⟩, hok, hmsgs, ?_, ?_, ?_⟩
  · simp [hoi]
  · intro hempty
    simp [hoi, nextOrderIndex, hempty]
  · intro mx hmax
    haveI : Std.Antisymm (fun (a b : Int) => a ≤ b) := ⟨fun hab hba => le_antisymm hab hba⟩
    obtain ⟨hmem, hle⟩ := (List.max?_eq_some_iff (fun a : Int => le_refl a)
      (fun a b => max_choice a b) (fun a b c => max_le_iff)).mp hmax
    exact ⟨hmem, hle, by simp [hoi, nextOrderIndex, hmax]⟩

/-- Witness for the C6 theorem: appending a message with no explicit order
index to a chat whose maximum order index is 1. -/
theorem addMessage_orderIndex_witness :
    ∃ s' k' mid stored,
      addMessageToChat envAllFail wStoreMsgs 0 "c1" { role := "user", content := "w" } =
        (s', k', Except.ok mid) ∧
      s'.msgs = wStoreMsgs.msgs ++ [stored] ∧
      stored.orderIndex = nextOrderIndex wStoreMsgs "c1" ∧
      (wStoreMsgs.msgs.filter (fun m2 => m2.chatId = "c1") = [] → stored.orderIndex = 0) ∧
      (∀ mx,
        ((wStoreMsgs.msgs.filter (fun m2 => m2.chatId = "c1")).map (fun m2 => m2.orderIndex)).max? =
          some mx →
        mx ∈ (wStoreMsgs.msgs.filter (fun m2 => m2.chatId = "c1")).map (fun m2 => m2.orderIndex) ∧
        (∀ y ∈ (wStoreMsgs.msgs.filter (fun m2 => m2.chatId = "c1")).map
          (fun m2 => m2.orderIndex), y ≤ mx) ∧
        stored.orderIndex = mx + 1) :=
  addMessage_orderIndex_spec envAllFail wStoreMsgs 0 "c1" { role := "user", content := "w" }
    (fun _ => rfl) (by decide) rfl

/-- Claim C5: `getChat` returns the chat's messages in strictly increasing
`orderIndex` (given the data-model invariant that order indices are unique
per chat), each carrying exactly its stored citations — an empty list, never
a missing value, when none are stored. -/
theorem getChat_ordering_citations_spec (s : Store) (cid : String) (chat : ChatOut)
    (hnd : (s.msgs.filter (fun m => m.chatId = cid)).Pairwise
      (fun a b => a.orderIndex ≠ b.orderIndex))
    (h : getChatById s cid = some chat) :
    chat.messages.Pairwise (fun a b => a.orderIndex < b.orderIndex) ∧
    (∀ m ∈ chat.messages, m.citations = citationsFor s m.id) ∧
    (∀ m ∈ chat.messages, (∀ c ∈ s.cits, c.messageId ≠ m.id) → m.citations = []) := by
  unfold getChatById at h
  cases hfind : s.chats.find? (fun c => c.id = cid) with
  | none =>
    rw [hfind] at h
    cases h
  | some crow =>
    rw [hfind] at h
    simp only [Option.some.injEq] at h
    subst h
    have hperm := List.perm_insertionSort msgLe (s.msgs.filter (fun m => m.chatId = cid))
    have hsorted : (List.insertionSort msgLe (s.msgs.filter (fun m => m.chatId = cid))).Pairwise
        msgLe := List.sorted_insertionSort msgLe _
    have hne : (List.insertionSort msgLe (s.msgs.filter (fun m => m.chatId = cid))).Pairwise
        (fun a b => a.orderIndex ≠ b.orderIndex) :=
      (List.Perm.pairwise_iff (fun hxy heq => hxy heq.symm) hperm).mpr hnd
    have hlt : (List.insertionSort msgLe (s.msgs.filter (fun m => m.chatId = cid))).Pairwise
        (fun a b => a.orderIndex < b.orderIndex) :=
      (hsorted.and hne).imp (fun hab => lt_of_le_of_ne hab.1 hab.2)
    refine ⟨List.pairwise_map.mpr hlt, ?_, ?_⟩
    · intro m hm
      obtain ⟨a, -, rfl⟩ := List.mem_map.mp hm
      rfl
    · intro m hm hnone
      obtain ⟨a, -, rfl⟩ := List.mem_map.mp hm
      show citationsFor s a.id = []
      unfold citationsFor
      rw [List.filter_eq_nil_iff.mpr (fun c hc => by simp [hnone c hc])]
      rfl

/-- Witness for the C5 theorem on a concrete two-message store. -/
theorem getChat_ordering_citations_witness :
    (ChatOut.messages ⟨"c1", "T",
      [⟨"m1", "user", "u", none, [], 0⟩,
       ⟨"m2", "assistant", "a", none, [⟨"t", "https://e.com", none⟩], 1⟩]⟩).Pairwise
      (fun a b => a.orderIndex < b.orderIndex) ∧
    (∀ m ∈ ChatOut.messages ⟨"c1", "T",
      [⟨"m1", "user", "u", none, [], 0⟩,
       ⟨"m2", "assistant", "a", none, [⟨"t", "https://e.com", none⟩], 1⟩]⟩,
      m.citations = citationsFor wStoreMsgs m.id) ∧
    (∀ m ∈ ChatOut.messages ⟨"c1", "T",
      [⟨"m1", "user", "u", none, [], 0⟩,
       ⟨"m2", "assistant", "a", none, [⟨"t", "https://e.com", none⟩], 1⟩]⟩,
      (∀ c ∈ wStoreMsgs.cits, c.messageId ≠ m.id) → m.citations = []) :=
  getChat_ordering_citations_spec wStoreMsgs "c1"
    ⟨"c1", "T",
      [⟨"m1", "user", "u", none, [], 0⟩,
       ⟨"m2", "assistant", "a", none, [⟨"t", "https://e.com", none⟩], 1⟩]⟩
    (by decide) rfl

theorem validateCitation_url {j : Json} {c : Citation} (h : validateCitation j = some c) :
    isValidUrl c.url = true := by
  unfold validateCitation at h
  split at h
  · split at h
    · rename_i t u
      split at h
      · split at h
        · simp only [Option.some.injEq] at h
          subst h
          assumption
        · simp only [Option.some.injEq] at h
          subst h
          assumption
        · cases h
      · cases h
    · cases h
  · cases h

theorem validateCitationList_spec : ∀ {xs : List Json} {cs : List Citation},
    validateCitationList xs = some cs →
    cs.length = xs.length ∧ ∀ c ∈ cs, isValidUrl c.url = true := by
  intro xs
  induction xs with
  | nil =>
    intro cs h
    simp only [validateCitationList, Option.some.injEq] at h
    subst h
    exact ⟨rfl, by simp⟩
  | cons j js ih =>
    intro cs h
    simp only [validateCitationList] at h
    split at h
    · rename_i c cs' hc hcs
      simp only [Option.some.injEq] at h
      subst h
      obtain ⟨hlen, hurl⟩ := ih hcs
      refine ⟨by simp [hlen], ?_⟩
      intro x hx
      rcases List.mem_cons.mp hx with rfl | hx
      · exact validateCitation_url hc
      · exact hurl x hx
    · cases h

theorem validateLLMResponse_citations {j : Json} {v : LLMResp}
    (h : validateLLMResponse j = some v) :
    v.citations.length ≤ 5 ∧ ∀ c ∈ v.citations, isValidUrl c.url = true := by
  unfold validateLLMResponse at h
  split at h
  · split at h
    · rename_i a xs ha hxs
      split at h
      · rename_i hlen
        cases hcl : validateCitationList xs with
        | none =>
          rw [hcl] at h
          cases h
        | some cs =>
          rw [hcl] at h
          simp only [Option.map_some', Option.some.injEq] at h
          subst h
          obtain ⟨hl, hu⟩ := validateCitationList_spec hcl
          exact ⟨by rw [hl]; exact hlen, hu⟩
      · cases h
    · cases h
  · cases h

theorem parseLLMResponse_citations {raw : String} {v : LLMResp}
    (h : parseLLMResponse raw = some v) :
    v.citations.length ≤ 5 ∧ ∀ c ∈ v.citations, isValidUrl c.url = true := by
  unfold parseLLMResponse at h
  split at h
  · cases h
  · exact validateLLMResponse_citations h

theorem processQueryWithSearch_citations {env : Env} {query : String}
    {srs : List SearchResult} {hist : List ConvMsg} {qr : QueryResult}
    (h : processQueryWithSearch env query srs hist = Except.ok qr) :
    qr.citations = none ∨
      ∃ cs, qr.citations = some cs ∧ cs.length ≤ 5 ∧ ∀ c ∈ cs, isValidUrl c.url = true := by
  unfold processQueryWithSearch at h
  split at h
  · cases h
  · split at h
    · rename_i v hv
      simp only [Except.ok.injEq] at h
      subst h
      exact Or.inr ⟨v.citations, rfl, (parseLLMResponse_citations hv).1,
        (parseLLMResponse_citations hv).2⟩
    · simp only [Except.ok.injEq] at h
      subst h
      exact Or.inl rfl

theorem processUserMessage_catch_citations {env : Env} {message : String}
    {hist : List ConvMsg} {resp : ProcResult}
    (h : (match processQueryWithoutSearch env message hist with
      | Except.error e => (Except.error e : Except Unit ProcResult)
      | Except.ok r => Except.ok ⟨r.answer, some [], none, none⟩) = Except.ok resp) :
    (resp.citations.getD []).length ≤ 5 ∧
      ∀ c ∈ resp.citations.getD [], isValidUrl c.url = true := by
  cases hf : processQueryWithoutSearch env message hist with
  | error e =>
    rw [hf] at h
    cases h
  | ok fb =>
    rw [hf] at h
    simp only [Except.ok.injEq] at h
    subst h
    simp

theorem processUserMessage_citations {env : Env} {message : String} {hist : List ConvMsg}
    {resp : ProcResult} (h : processUserMessage env message hist = Except.ok resp) :
    (resp.citations.getD []).length ≤ 5 ∧
      ∀ c ∈ resp.citations.getD [], isValidUrl c.url = true := by
  unfold processUserMessage at h
  simp only [shouldSearchForQuery, if_true] at h
  split at h
  · rename_i r htry
    simp only [Except.ok.injEq] at h
    subst h
    split at htry
    · cases htry
    · split at htry
      · cases htry
      · split at htry
        · cases htry
        · rename_i qr hp
          simp only [Except.ok.injEq] at htry
          subst htry
          rcases processQueryWithSearch_citations hp with hn | ⟨cs, hsome, hlen, hurl⟩
          · simp [hn]
          · simp only [hsome, Option.getD_some]
            exact ⟨hlen, hurl⟩
  · exact processUserMessage_catch_citations h

theorem sendMessageTry_ok_inv {env : Env} {s : Store} {k : Nat} {input : SendInput}
    {s' : Store} {k' : Nat} {r : SendResult}
    (h : sendMessageTry env s k input = (s', k', Except.ok r)) :
    ∃ resp, processUserMessage env input.content input.conversationHistory = Except.ok resp ∧
      r = ⟨true, input.chatId, resp.answer, resp.citations.getD [], resp.searchQuery⟩ := by
  unfold sendMessageTry at h
  split at h
  · cases h
  · split at h
    · cases h
    · rename_i resp hresp
      split at h
      · cases h
      · split at h
        · cases h
        · split at h
          · cases h
          · simp only [Prod.mk.injEq, Except.ok.injEq] at h
            exact ⟨resp, hresp, h.2.2.symm⟩

/-- Claim C8: every successful `sendMessage` run returns at most five
citations, each with a syntactically valid URL. -/
theorem citations_bounded_valid_spec (env : Env) (s : Store) (k : Nat) (input : SendInput)
    (s' : Store) (k' : Nat) (r : SendResult)
    (h : sendMessage env s k input = (s', k', Except.ok r)) (hs : r.success = true) :
    r.citations.length ≤ 5 ∧ ∀ c ∈ r.citations, isValidUrl c.url = true := by
  unfold sendMessage at h
  split at h
  · rename_i htry
    simp only [Prod.mk.injEq, Except.ok.injEq] at h
    obtain ⟨-, -, hr⟩ := h
    subst hr
    obtain ⟨resp, hresp, hr⟩ := sendMessageTry_ok_inv htry
    subst hr
    exact processUserMessage_citations hresp
  · split at h
    · simp only [Prod.mk.injEq, Except.ok.injEq] at h
      obtain ⟨-, -, hr⟩ := h
      subst hr
      cases hs
    · cases h

/-- Witness for the C8 theorem: a fully successful run. -/
theorem citations_bounded_valid_witness :
    (SendResult.citations ⟨true, "c1", "ok", [], some goodJsonText⟩).length ≤ 5 ∧
    ∀ c ∈ SendResult.citations ⟨true, "c1", "ok", [], some goodJsonText⟩,
      isValidUrl c.url = true :=
  citations_bounded_valid_spec envAllOk wStore 0 ⟨"q", "c1", []⟩
    ⟨[⟨"c1", goodJsonText⟩],
     [⟨"id0", "c1", "user", "q", none, 0⟩, ⟨"id1", "c1", "assistant", "ok", some goodJsonText, 1⟩],
     [], [⟨"id2", "id1", goodJsonText, []⟩], 3⟩ 4
    ⟨true, "c1", "ok", [], some goodJsonText⟩ (by rfl) rfl

theorem saveSnapshotStep_frame (env : Env) (s : Store) (k : Nat) (mid : String)
    (resp : ProcResult) :
    (saveSnapshotStep env s k mid resp).1.msgs = s.msgs ∧
    (saveSnapshotStep env s k mid resp).1.chats = s.chats := by
  unfold saveSnapshotStep
  split
  · split
    · exact ⟨rfl, rfl⟩
    · unfold addSearchResultsToMessage
      split
      · exact ⟨rfl, rfl⟩
      · exact ⟨rfl, rfl⟩
  · exact ⟨rfl, rfl⟩

theorem updateChatTitle_frame (env : Env) (s : Store) (k : Nat) (cid t : String) :
    (updateChatTitle env s k cid t).1.msgs = s.msgs := by
  unfold updateChatTitle
  split
  · rfl
  · rfl

theorem titleStep_frame (env : Env) (s : Store) (k : Nat) (input : SendInput) :
    (titleStep env s k input).1.msgs = s.msgs := by
  unfold titleStep
  split
  · split
    · split
      · rfl
      · exact updateChatTitle_frame env s k input.chatId _
    · rfl
  · rfl

theorem getChatById_length {s : Store} {cid : String} {chat : ChatOut}
    (h : getChatById s cid = some chat) :
    chat.messages.length = (s.msgs.filter (fun m => m.chatId = cid)).length := by
  unfold getChatById at h
  split at h
  · cases h
  · simp only [Option.some.injEq] at h
    subst h
    simp only [List.length_map]
    exact (List.perm_insertionSort msgLe _).length_eq

theorem chatTitle_after_update (l : List StoredChat) (cid t : String)
    (hex : l.any (fun c => c.id = cid) = true) :
    ((l.map (fun c => if c.id = cid then { c with title := t } else c)).find?
      (fun c => c.id = cid)).map (fun c => c.title) = some t := by
  induction l with
  | nil => cases hex
  | cons c l ih =>
    by_cases hc : c.id = cid
    · simp only [List.map_cons, if_pos hc]
      rw [List.find?_cons_of_pos _ (by simp [hc])]
      rfl
    · simp only [List.map_cons, if_neg hc]
      rw [List.find?_cons_of_neg _ (by simp [hc])]
      apply ih
      simp only [List.any_cons, Bool.or_eq_true] at hex
      rcases hex with hx | hx
      · exact absurd (by simpa using hx) hc
      · exact hx

theorem updateChatTitle_ok_inv {env : Env} {s : Store} {k : Nat} {cid t : String}
    {s' : Store} {k' : Nat} {u : Unit}
    (h : updateChatTitle env s k cid t = (s', k', Except.ok u)) :
    s'.msgs = s.msgs ∧
    (chatExists s cid = true → chatTitle s' cid = some t) := by
  unfold updateChatTitle at h
  split at h
  · simp only [Prod.mk.injEq] at h
    obtain ⟨hs, -, -⟩ := h
    subst hs
    refine ⟨rfl, fun hex => ?_⟩
    exact chatTitle_after_update s.chats cid t hex
  · exact absurd h (by simp)

theorem titleStep_ok_inv {env : Env} {s : Store} {k : Nat} {input : SendInput}
    {s' : Store} {k' : Nat} {u : Unit}
    (h : titleStep env s k input = (s', k', Except.ok u)) :
    ((s.msgs.filter (fun m => m.chatId = input.chatId)).length ≤ 3 →
      chatExists s input.chatId = true →
      ∃ t, generateChatTitle env input.content = Except.ok t ∧
        chatTitle s' input.chatId = some t) ∧
    (3 < (s.msgs.filter (fun m => m.chatId = input.chatId)).length → s' = s) := by
  unfold titleStep at h
  split at h
  · rename_i chat hchat
    have hlen := getChatById_length hchat
    split at h
    · rename_i hle
      split at h
      · cases h
      · rename_i t hgen
        obtain ⟨-, htitle⟩ := updateChatTitle_ok_inv h
        refine ⟨fun _ hex => ⟨t, hgen, htitle hex⟩, fun hgt => ?_⟩
        rw [hlen] at hle
        exact absurd hle (by omega)
    · rename_i hgt
      simp only [Prod.mk.injEq] at h
      obtain ⟨hs, -, -⟩ := h
      subst hs
      rw [hlen] at hgt
      exact ⟨fun hle _ => absurd hle (by simpa using hgt), fun _ => rfl⟩
  · rename_i hchat
    simp only [Prod.mk.injEq] at h
    obtain ⟨hs, -, -⟩ := h
    subst hs
    refine ⟨fun _ hex => ?_, fun _ => rfl⟩
    exfalso
    unfold chatExists at hex
    rw [List.any_eq_true] at hex
    obtain ⟨c, hc, hcid⟩ := hex
    have : s.chats.find? (fun c => c.id = input.chatId) ≠ none := by
      intro hn
      exact absurd hcid (by simpa using List.find?_eq_none.mp hn c hc)
    unfold getChatById at hchat
    cases hfind : s.chats.find? (fun c => c.id = input.chatId) with
    | none => exact this hfind
    | some crow => rw [hfind] at hchat; cases hchat

/-- Claim C9: on a successful `sendMessage` run, the chat's title is
regenerated through `generateChatTitle` precisely when the chat then holds
at most 3 stored messages; with more than 3 messages the title field is left
as it was before the call. -/
theorem title_regeneration_spec (env : Env) (s : Store) (k : Nat) (input : SendInput)
    (s' : Store) (k' : Nat) (r : SendResult)
    (h : sendMessage env s k input = (s', k', Except.ok r)) (hs : r.success = true) :
    ((s'.msgs.filter (fun m => m.chatId = input.chatId)).length ≤ 3 →
      ∃ t, generateChatTitle env input.content = Except.ok t ∧
        chatTitle s' input.chatId = some t) ∧
    (3 < (s'.msgs.filter (fun m => m.chatId = input.chatId)).length →
      chatTitle s' input.chatId = chatTitle s input.chatId) := by
  unfold sendMessage at h
  split at h
  · rename_i s1 k1 r1 htry
    simp only [Prod.mk.injEq, Except.ok.injEq] at h
    obtain ⟨hs1, -, hr1⟩ := h
    rw [← hs1]
    rw [← hr1] at hs
    unfold sendMessageTry at htry
    split at htry
    · simp only [Prod.mk.injEq] at htry
      exact absurd htry.2.2 (by simp)
    · rename_i sa ka mid1 hu
      split at htry
      · simp only [Prod.mk.injEq] at htry
        exact absurd htry.2.2 (by simp)
      · rename_i resp hp
        split at htry
        · simp only [Prod.mk.injEq] at htry
          exact absurd htry.2.2 (by simp)
        · rename_i sb kb mid2 ha
          split at htry
          · simp only [Prod.mk.injEq] at htry
            exact absurd htry.2.2 (by simp)
          · rename_i sc kc uc hsnap
            split at htry
            · simp only [Prod.mk.injEq] at htry
              exact absurd htry.2.2 (by simp)
            · rename_i sd kd ud htit
              simp only [Prod.mk.injEq, Except.ok.injEq] at htry
              obtain ⟨hsd, -, -⟩ := htry
              rw [← hsd]
              obtain ⟨-, hchats1, -, -⟩ := addMessageToChat_ok_inv hu
              obtain ⟨-, hchats2, -, -⟩ := addMessageToChat_ok_inv ha
              obtain ⟨hmsgs3, hchats3⟩ := saveSnapshotStep_frame env sb kb mid2 resp
              rw [hsnap] at hmsgs3 hchats3
              have hmsgs4 : sd.msgs = sc.msgs := by
                have := titleStep_frame env sc kc input
                rw [htit] at this
                exact this
              have hchatsc : sc.chats = s.chats := by
                rw [hchats3, hchats2, hchats1]
              have hexc : chatExists sc input.chatId = true := by
                unfold chatExists
                rw [hchatsc]
                exact addMessageToChat_ok_chatExists hu
              obtain ⟨hA, hB⟩ := titleStep_ok_inv htit
              constructor
              · intro hn
                rw [hmsgs4] at hn
                obtain ⟨t, hgen, htitle⟩ := hA hn hexc
                exact ⟨t, hgen, htitle⟩
              · intro hn
                rw [hmsgs4] at hn
                rw [hB hn]
                unfold chatTitle
                rw [hchatsc]
  · split at h
    · simp only [Prod.mk.injEq, Except.ok.injEq] at h
      obtain ⟨-, -, hr⟩ := h
      subst hr
      cases hs
    · cases h

/-- Witness for the C9 theorem: the successful run of `envAllOk` leaves the
chat with 2 messages, so the title is regenerated. -/
theorem title_regeneration_witness :
    ∃ t, generateChatTitle envAllOk "q" = Except.ok t ∧
      chatTitle ⟨[⟨"c1", goodJsonText⟩],
        [⟨"id0", "c1", "user", "q", none, 0⟩,
         ⟨"id1", "c1", "assistant", "ok", some goodJsonText, 1⟩],
        [], [⟨"id2", "id1", goodJsonText, []⟩], 3⟩ "c1" = some t :=
  (title_regeneration_spec envAllOk wStore 0 ⟨"q", "c1", []⟩
    ⟨[⟨"c1", goodJsonText⟩],
     [⟨"id0", "c1", "user", "q", none, 0⟩, ⟨"id1", "c1", "assistant", "ok", some goodJsonText, 1⟩],
     [], [⟨"id2", "id1", goodJsonText, []⟩], 3⟩ 4
    ⟨true, "c1", "ok", [], some goodJsonText⟩ (by rfl) rfl).1 (by decide)

/-- Claim C1: when message processing fails (`processUserMessage` throws)
but the store works, `sendMessage` catches at the top level, persists the
apology as the assistant message after the already-saved user message, and
returns `success: false` without throwing; and whenever `sendMessage` does
throw, the try block failed and even the apology save failed. -/
theorem sendMessage_failure_fallback_spec (env : Env) (s : Store) (k : Nat)
    (input : SendInput) (hex : chatExists s input.chatId = true) :
    ((∀ n, env.dbOk n = true) →
      processUserMessage env input.content input.conversationHistory = Except.error () →
      ∃ s' k' mUser mBot,
        sendMessage env s k input =
          (s', k', Except.ok ⟨false, input.chatId, apologyText, [], none⟩) ∧
        s'.msgs = s.msgs ++ [mUser, mBot] ∧
        mUser.role = "user" ∧ mUser.content = input.content ∧
        mBot.role = "assistant" ∧ mBot.content = apologyText) ∧
    (∀ s'' k'' e, sendMessage env s k input = (s'', k'', Except.error e) →
      ∃ s' k', sendMessageTry env s k input = (s', k', Except.error ()) ∧
        (addMessageToChat env s' k' input.chatId
          { role := "assistant", content := apologyText }).2.2 = Except.error ()) := by
  constructor
  · intro hdb hproc
    obtain ⟨s1, k1, hu⟩ := addMessageToChat_ok_exists env s k input.chatId
      { role := "user", content := input.content } hdb hex
    obtain ⟨humsgs, huchats, -, -⟩ := addMessageToChat_ok_inv hu
    have htry : sendMessageTry env s k input = (s1, k1, Except.error ()) := by
      unfold sendMessageTry
      simp only [hu, hproc]
    have hex1 : chatExists s1 input.chatId = true := by
      unfold chatExists
      rw [huchats]
      exact hex
    obtain ⟨s2, k2, hb⟩ := addMessageToChat_ok_exists env s1 k1 input.chatId
      { role := "assistant", content := apologyText } hdb hex1
    obtain ⟨hbmsgs, -, -, -⟩ := addMessageToChat_ok_inv hb
    refine ⟨s2, k2,
      ⟨(genMsgId s { role := "user", content := input.content }).1, input.chatId, "user",
        input.content, none, nextOrderIndex s input.chatId⟩,
      ⟨(genMsgId s1 { role := "assistant", content := apologyText }).1, input.chatId, "assistant",
        apologyText, none, nextOrderIndex s1 input.chatId⟩,
      ?_, ?_, rfl, rfl, rfl, rfl⟩
    · unfold sendMessage
      simp only [htry, hb]
    · rw [hbmsgs, humsgs]
      simp
  · intro s'' k'' e h
    unfold sendMessage at h
    split at h
    · simp only [Prod.mk.injEq] at h
      exact absurd h.2.2 (by simp)
    · rename_i s1 k1 e1 htry
      split at h
      · simp only [Prod.mk.injEq] at h
        exact absurd h.2.2 (by simp)
      · rename_i s2 k2 e2 happ
        exact ⟨s1, k1, htry, by rw [happ]⟩

/-- Witness for the C1 theorem: every LLM call fails, the store works. -/
theorem sendMessage_failure_fallback_witness :
    (∀ n, envAllFail.dbOk n = true) ∧
    processUserMessage envAllFail "q" [] = Except.error () ∧
    (∃ s' k' mUser mBot,
      sendMessage envAllFail wStore 0 ⟨"q", "c1", []⟩ =
        (s', k', Except.ok ⟨false, "c1", apologyText, [], none⟩) ∧
      s'.msgs = wStore.msgs ++ [mUser, mBot] ∧
      mUser.role = "user" ∧ mUser.content = "q" ∧
      mBot.role = "assistant" ∧ mBot.content = apologyText) :=
  ⟨fun _ => rfl, rfl,
    (sendMessage_failure_fallback_spec envAllFail wStore 0 ⟨"q", "c1", []⟩ rfl).1
      (fun _ => rfl) rfl⟩

theorem processUserMessage_searchFail {env : Env} {message : String} {hist : List ConvMsg}
    {fb : FbResult}
    (hsearch : generateSearchQuery env message = Except.error () ∨
      ∃ q, generateSearchQuery env message = Except.ok q ∧ env.searchW q = Except.error ())
    (hfb : processQueryWithoutSearch env message hist = Except.ok fb) :
    processUserMessage env message hist = Except.ok ⟨fb.answer, some [], none, none⟩ := by
  unfold processUserMessage
  simp only [shouldSearchForQuery, if_true]
  rcases hsearch with hq | ⟨q, hq, hw⟩
  · simp only [hq, hfb]
  · simp only [hq, searchWeb, hw, hfb]

theorem getChatById_isSome {s : Store} {cid : String}
    (hex : chatExists s cid = true) :
    ∃ chat, getChatById s cid = some chat := by
  unfold chatExists at hex
  rw [List.any_eq_true] at hex
  obtain ⟨c, hc, hcid⟩ := hex
  unfold getChatById
  cases hfind : s.chats.find? (fun c => c.id = cid) with
  | none => exact absurd hcid (by simpa using List.find?_eq_none.mp hfind c hc)
  | some crow => exact ⟨_, rfl⟩

theorem titleStep_ok_exists (env : Env) (input : SendInput) (t : String)
    (hdb : ∀ n, env.dbOk n = true)
    (hgen : generateChatTitle env input.content = Except.ok t) (s : Store) (k : Nat) :
    ∃ s3 k3, titleStep env s k input = (s3, k3, Except.ok ()) := by
  unfold titleStep
  cases hchat : getChatById s input.chatId with
  | none => exact ⟨s, k, rfl⟩
  | some chat =>
    by_cases hlen : chat.messages.length ≤ 3
    · simp only [hlen, if_true, hgen]
      unfold updateChatTitle
      simp only [hdb, if_true]
      exact ⟨_, _, rfl⟩
    · simp only [hlen, if_false]
      exact ⟨s, k, rfl⟩

/-- Claim C2 (amended): when the search stage fails (query generation or the
web search throws), the no-search fallback LLM call succeeds, the store
writes succeed, and the title-generation LLM call succeeds (it is issued
inside the same try block, so its failure would instead surface as the
apology with `success: false`), `processUserMessage` falls back to the
no-search path and `sendMessage` returns `success: true` with the fallback
answer and an empty citations list, raising no error. (The answer is the
fallback path's answer, which the code does not guarantee to be
non-empty.) -/
theorem searchFail_fallback_spec (env : Env) (s : Store) (k : Nat) (input : SendInput)
    (hdb : ∀ n, env.dbOk n = true) (hex : chatExists s input.chatId = true)
    (hsearch : generateSearchQuery env input.content = Except.error () ∨
      ∃ q, generateSearchQuery env input.content = Except.ok q ∧
        env.searchW q = Except.error ())
    (fb : FbResult)
    (hfb : processQueryWithoutSearch env input.content input.conversationHistory =
      Except.ok fb)
    (rawT : String)
    (ht : env.llm (titleUserPrompt input.content) TITLE_GENERATION_PROMPT = Except.ok rawT) :
    ∃ s' k', sendMessage env s k input =
      (s', k', Except.ok ⟨true, input.chatId, fb.answer, [], none⟩) := by
  have hproc := processUserMessage_searchFail hsearch hfb
  obtain ⟨s1, k1, hu⟩ := addMessageToChat_ok_exists env s k input.chatId
    { role := "user", content := input.content } hdb hex
  obtain ⟨-, huchats, -, -⟩ := addMessageToChat_ok_inv hu
  have hex1 : chatExists s1 input.chatId = true := by
    unfold chatExists
    rw [huchats]
    exact hex
  obtain ⟨s2, k2, ha⟩ := addMessageToChat_ok_exists env s1 k1 input.chatId
    { role := "assistant", content := fb.answer, searchQuery := none, citations := some [] }
    hdb hex1
  have hgen : generateChatTitle env input.content =
      Except.ok (stripWrapQuotes (jsTrim rawT)) := by
    unfold generateChatTitle callLLM
    rw [ht]
    rfl
  obtain ⟨s3, k3, htit⟩ := titleStep_ok_exists env input (stripWrapQuotes (jsTrim rawT))
    hdb hgen s2 k2
  refine ⟨s3, k3, ?_⟩
  unfold sendMessage sendMessageTry
  simp only [hu, hproc, ha, saveSnapshotStep, htit]
  rfl

/-- Witness for the amended C2 theorem: the search client always fails, the
LLM returns well-formed JSON. -/
theorem searchFail_fallback_witness :
    ∃ s' k', sendMessage envFbOk wStore 0 ⟨"q", "c1", []⟩ =
      (s', k', Except.ok ⟨true, "c1", "ok", [], none⟩) :=
  searchFail_fallback_spec envFbOk wStore 0 ⟨"q", "c1", []⟩ (fun _ => rfl) rfl
    (Or.inr ⟨goodJsonText, by rfl, rfl⟩) ⟨"ok", []⟩ (by rfl) goodJsonText rfl

/-- Claim C2, counterexample to the non-emptiness part: with the search
stage failing and the fallback LLM returning the empty string, `sendMessage`
still succeeds with empty citations but the delivered answer is the empty
string, so the result does not always contain a non-empty answer. -/
theorem searchFail_nonempty_answer_cex :
    generateSearchQuery envEmptyLLM "q" = Except.ok "" ∧
    envEmptyLLM.searchW "" = Except.error () ∧
    (sendMessage envEmptyLLM wStore 0 ⟨"q", "c1", []⟩).2.2 =
      Except.ok ⟨true, "c1", "", [], none⟩ := by
  exact ⟨rfl, rfl, rfl⟩
